import Mathlib

/-!
Shallow embedding of nova-chatmix-linux (src/nova-chatmix.py, src/nova.py).

Python state is modelled as explicit record passing; side effects
(process spawns, device writes, pactl queries) are collected in an
ordered `List Effect`; Python exceptions become `Except PyError`.
-/

namespace NovaChatmix

/-- Bytes are modelled as natural numbers (the code only ever builds
`bytes(...)` from small int literals and packet payload values). -/
abbrev Byte := Nat

/-- PipeWire / PulseAudio sink names; modelled as character lists so that
Python substring membership (`a in b`) is `List.isInfixOf`. -/
abbrev SinkName := List Char

/-- Value of the `tx` field of `HeadsetFeature` in nova-chatmix.py:
`absent` models Python `None`, `notImpl` models the `NotImplemented`
sentinel, `present b` a concrete direction byte. -/
inductive TxVal where
  | notImpl
  | absent
  | present (b : Byte)
deriving DecidableEq, Repr

/-- Liveness of one `Popen` field: `noProc` models the field being `None`
(never started), `running` a process with `poll() is None`, `dead` a
terminated process. -/
inductive ProcState where
  | noProc
  | running
  | dead
deriving DecidableEq, Repr

/-- Which of the two virtual loopback sinks an effect refers to. -/
inductive SinkId where
  | game
  | chat
deriving DecidableEq, Repr

/-- Observable side effects of the code, in program order:
`listSinksQuery` is the `pactl list sinks short` call in
`_detect_original_sink`; `spawnLoopback` a `pw-loopback` `Popen`;
`terminate s` a `Popen.terminate()` in `_remove_virtual_sinks`;
`setSinkVolume` a `pactl set-sink-volume` `Popen`; `devWrite` a
`dev.write(...)` of an encoded packet. -/
inductive Effect where
  | listSinksQuery
  | spawnLoopback (target : SinkName) (virtName : SinkName)
  | terminate (s : SinkId)
  | setSinkVolume (sinkInput : SinkName) (percent : Byte)
  | devWrite (data : List Byte)
deriving DecidableEq, Repr

/-- Python exceptions reachable in the modelled code paths. -/
inductive PyError where
  | indexError
  | runtimeError
deriving DecidableEq, Repr

/-- HeadsetFeature._create_msg_data (nova-chatmix.py line 38-39):
`bytes(data).ljust(msg_len, b"0")`.  Note `b"0"` is the ASCII character
zero, byte 0x30, and `ljust` leaves the data unchanged when it is already
`msg_len` long or longer. -/
def createMsgData (data : List Byte) (msgLen : Nat) : List Byte :=
  data ++ List.replicate (msgLen - data.length) 0x30

/-- Modelled from the spec: the encoding the spec describes in 4.3,
`[direction_byte, opcode, payload_bytes...]` left-aligned with the
remainder zero-padded to the packet size.  Comparison target for the
round-trip claim about `_create_msg_data`. -/
def specEncodeWrite (dir opcode : Byte) (payload : List Byte) (packetSize : Nat) :
    List Byte :=
  ([dir, opcode] ++ payload) ++
    List.replicate (packetSize - (2 + payload.length)) 0

/-- Whether a `tx` value passes the guard in `HeadsetFeature._write`:
the code returns `False` when `self.tx in {NotImplemented, None}`. -/
def txWritable : TxVal → Bool
  | TxVal.present _ => true
  | _ => false

/-- HeadsetFeature._write (nova-chatmix.py lines 41-47): returns `False`
with no device I/O when `tx` is `NotImplemented` or `None`, otherwise
writes the encoded packet `[tx, data...]` padded to the packet size and
returns `True`. -/
def hfWrite (packetSize : Nat) (tx : TxVal) (data : List Byte) :
    Bool × List Effect :=
  match tx with
  | TxVal.notImpl => (false, [])
  | TxVal.absent => (false, [])
  | TxVal.present t => (true, [Effect.devWrite (createMsgData (t :: data) packetSize)])

/-- State of the `ChatMix` dataclass (nova-chatmix.py lines 176-198):
the fields that the modelled methods read or write.  `pw_original_sink`
is `Option`: `none` models Python `None`; `some []` models the (falsy)
empty string. -/
structure ChatMix where
  tx : TxVal
  rx : Byte
  device_name : SinkName
  opt_chatmix : Byte
  opt_chatmix_enable : Byte
  pw_original_sink : Option SinkName
  pw_game_sink : SinkName
  pw_chat_sink : SinkName
  pw_loopback_game_process : ProcState
  pw_loopback_chat_process : ProcState
  chatmix_controls_enabled : Bool
deriving DecidableEq, Repr

/-- One component of `_are_sinks_open` (nova-chatmix.py lines 236-246):
a process field is "open" iff it is not `None` and `poll()` is `None`. -/
def procOpen : ProcState → Bool
  | ProcState.running => true
  | _ => false

/-- Python truthiness of the `pw_original_sink` field: `None` and the
empty string are falsy. -/
def truthyName : Option SinkName → Bool
  | none => false
  | some s => !s.isEmpty

/-- Python substring membership `a in b` on strings: `a` occurs as a
contiguous substring of `b` (the empty string is in every string). -/
def pyInStr (needle hay : SinkName) : Bool :=
  decide (List.IsInfix needle hay)

/-- The `for sink in sinks` loop of `_detect_original_sink`
(nova-chatmix.py lines 227-234).  Each line of the `pactl` output is
pre-split on tabs into its field list; `sink.split("\t")[1]` raises
`IndexError` when a line has fewer than two fields; `self.device_name in
name` is substring membership; the `for/else` raises `RuntimeError`
when no line matches. -/
def detectLoop (deviceName : SinkName) :
    List (List SinkName) → Except PyError SinkName
  | [] => Except.error PyError.runtimeError
  | fields :: rest =>
    match fields.get? 1 with
    | none => Except.error PyError.indexError
    | some name =>
      if pyInStr deviceName name then Except.ok name
      else detectLoop deviceName rest

/-- ChatMix._detect_original_sink (nova-chatmix.py lines 218-234): a
truthy cached/preset `pw_original_sink` short-circuits; otherwise one
`pactl list sinks short` query is issued and the first matching sink
name is cached.  `env` is the pre-split line list that query returns. -/
def detectOriginalSink (env : List (List SinkName)) (ch : ChatMix) :
    Except PyError (ChatMix × List Effect) :=
  if truthyName ch.pw_original_sink then Except.ok (ch, [])
  else
    match detectLoop ch.device_name env with
    | Except.error e => Except.error e
    | Except.ok name =>
      Except.ok ({ch with pw_original_sink := some name}, [Effect.listSinksQuery])

/-- ChatMix._start_virtual_sinks (nova-chatmix.py lines 250-264):
detects the original sink, then spawns a `pw-loopback` process for each
of the two virtual sinks that is not currently open (game first). -/
def startVirtualSinks (env : List (List SinkName)) (ch : ChatMix) :
    Except PyError (ChatMix × List Effect) :=
  match detectOriginalSink env ch with
  | Except.error e => Except.error e
  | Except.ok (ch1, e1) =>
    let target := ch1.pw_original_sink.getD []
    let gameOpen := procOpen ch1.pw_loopback_game_process
    let chatOpen := procOpen ch1.pw_loopback_chat_process
    let ch2 := if gameOpen then ch1
      else {ch1 with pw_loopback_game_process := ProcState.running}
    let e2 := if gameOpen then ([] : List Effect)
      else [Effect.spawnLoopback target ch1.pw_game_sink]
    let ch3 := if chatOpen then ch2
      else {ch2 with pw_loopback_chat_process := ProcState.running}
    let e3 := if chatOpen then ([] : List Effect)
      else [Effect.spawnLoopback target ch1.pw_chat_sink]
    Except.ok (ch3, e1 ++ e2 ++ e3)

/-- Effect of `Popen.terminate()` on a process field:
`None` stays `None`, anything else is terminated. -/
def termProc : ProcState → ProcState
  | ProcState.noProc => ProcState.noProc
  | _ => ProcState.dead

/-- ChatMix._remove_virtual_sinks (nova-chatmix.py lines 266-270):
terminates each process field that is not `None`, game first. -/
def removeVirtualSinks (ch : ChatMix) : ChatMix × List Effect :=
  ({ch with
      pw_loopback_game_process := termProc ch.pw_loopback_game_process,
      pw_loopback_chat_process := termProc ch.pw_loopback_chat_process},
   (if ch.pw_loopback_game_process = ProcState.noProc then []
    else [Effect.terminate SinkId.game]) ++
   (if ch.pw_loopback_chat_process = ProcState.noProc then []
    else [Effect.terminate SinkId.chat]))

/-- The f-string `f"input.{sink}"` used by the volume commands. -/
def inputName (s : SinkName) : SinkName :=
  "input.".toList ++ s

/-- Python list indexing `msg[i]`: raises `IndexError` out of range. -/
def pyGet (msg : List Byte) (i : Nat) : Except PyError Byte :=
  match msg.get? i with
  | none => Except.error PyError.indexError
  | some v => Except.ok v

/-- ChatMix.chatmix (nova-chatmix.py lines 272-290): the handler bound
to opcode 0x45.  If either sink is closed it first calls
`_start_virtual_sinks`, then reads `msg[1]`/`msg[2]` and issues one
`pactl set-sink-volume` per virtual sink. -/
def chatmixHandler (env : List (List SinkName)) (ch : ChatMix)
    (msg : List Byte) : Except PyError (ChatMix × List Effect) :=
  match
    (if procOpen ch.pw_loopback_game_process &&
        procOpen ch.pw_loopback_chat_process then Except.ok (ch, [])
     else startVirtualSinks env ch) with
  | Except.error e => Except.error e
  | Except.ok (ch1, e1) =>
    match pyGet msg 1, pyGet msg 2 with
    | Except.ok g, Except.ok c =>
      Except.ok (ch1, e1 ++
        [Effect.setSinkVolume (inputName ch1.pw_game_sink) g,
         Effect.setSinkVolume (inputName ch1.pw_chat_sink) c])
    | Except.error e, _ => Except.error e
    | _, Except.error e => Except.error e

/-- ChatMix.set_chatmix_controls (nova-chatmix.py lines 205-207):
writes the enable opcode with `int(state)` and records the new enabled
state only when `_write` returned `True`. -/
def setChatmixControls (packetSize : Nat) (ch : ChatMix) (state : Bool) :
    ChatMix × List Effect :=
  let w := hfWrite packetSize ch.tx
    [ch.opt_chatmix_enable, if state then 1 else 0]
  (if w.1 then {ch with chatmix_controls_enabled := state} else ch, w.2)

/-- ChatMix.on_close (nova-chatmix.py lines 212-215): only when the
controls were recorded enabled, disable them and remove the sinks. -/
def chatMixOnClose (packetSize : Nat) (ch : ChatMix) : ChatMix × List Effect :=
  if ch.chatmix_controls_enabled then
    let s := setChatmixControls packetSize ch false
    let r := removeVirtualSinks s.1
    (r.1, s.2 ++ r.2)
  else (ch, [])

/-- Headset state relevant to close/power handling: the `closing` flag
and the attached ChatMix feature.  In both device classes of
nova-chatmix.py, ChatMix's hook is the only registered `on_close`
(SonarIcon, Volume and EQ define none). -/
structure HeadsetState where
  closing : Bool
  chatmix : ChatMix
deriving DecidableEq, Repr

/-- Headset.close (nova-chatmix.py lines 152-155): sets `closing` and
fires every `on_close` hook in registration order. -/
def closeHeadset (packetSize : Nat) (st : HeadsetState) :
    HeadsetState × List Effect :=
  let st1 : HeadsetState := {st with closing := true}
  let h := chatMixOnClose packetSize st1.chatmix
  ({st1 with chatmix := h.1}, h.2)

/-- Nova5X.on_power_change (nova-chatmix.py lines 387-394): matches on
`msg[1]`; 2 removes the virtual sinks, 3 starts them, anything else is
ignored. -/
def onPowerChange (env : List (List SinkName)) (st : HeadsetState)
    (msg : List Byte) : Except PyError (HeadsetState × List Effect) :=
  match pyGet msg 1 with
  | Except.error e => Except.error e
  | Except.ok v =>
    if v = 2 then
      let r := removeVirtualSinks st.chatmix
      Except.ok ({st with chatmix := r.1}, r.2)
    else if v = 3 then
      match startVirtualSinks env st.chatmix with
      | Except.error e => Except.error e
      | Except.ok (ch, effs) => Except.ok ({st with chatmix := ch}, effs)
    else Except.ok (st, [])

/-- Handlers are identified by an abstract numeric id; dispatch only ever
compares and invokes them, never inspects them. -/
abbrev HandlerId := Nat

/-- The `self.listeners` dict of `Headset` (nova-chatmix.py line 82),
as an association list with Python dict semantics: at most one binding
per key, insertion order preserved. -/
abbrev DispatchList := List (Byte × HandlerId)

/-- Python `d[k] = v`: replaces an existing binding in place, otherwise
appends a new one. -/
def dictInsert (d : DispatchList) (k : Byte) (v : HandlerId) : DispatchList :=
  if d.any (fun p => p.1 == k) then
    d.map (fun p => if p.1 == k then (k, v) else p)
  else d ++ [(k, v)]

/-- Python `d.get(k)`: the value bound to `k`, or `None`. -/
def dictGet (d : DispatchList) (k : Byte) : Option HandlerId :=
  (d.find? (fun p => p.1 == k)).map (fun p => p.2)

/-- Python `d.update(new)`: inserts every binding of `new` in order. -/
def dictUpdate (d new : DispatchList) : DispatchList :=
  new.foldl (fun acc p => dictInsert acc p.1 p.2) d

/-- Whether `k` is a key of the table. -/
def keyMem (d : DispatchList) (k : Byte) : Bool :=
  d.any (fun p => p.1 == k)

/-- Two features have disjoint opcode sets. -/
def keysDisjoint (a b : DispatchList) : Bool :=
  a.all (fun p => !(keyMem b p.1))

/-- The `self.listeners.update(feature.opt_codes)` step of
Headset._add_feature (nova-chatmix.py line 101): merges the feature's
opcode table into the device dispatch table. -/
def addFeatureListeners (listeners featCodes : DispatchList) : DispatchList :=
  dictUpdate listeners featCodes

/-- One iteration body of Headset.listen (nova-chatmix.py lines 131-143)
after a read returned `msg`: an empty read `continue`s, otherwise
`self.listeners.get(msg[0])` is invoked on the raw packet when it is not
`None`.  The result is the list of handler invocations performed. -/
def listenBody (listeners : DispatchList) (msg : List Byte) :
    List (HandlerId × List Byte) :=
  match msg with
  | [] => []
  | op :: _ =>
    match dictGet listeners op with
    | none => []
    | some h => [(h, msg)]

/-- One event observed by the blocked read inside Headset.listen:
a timeout (hidapi returns an empty message / pyusb raises
`USBTimeoutError`), a delivered packet, a fatal transport error
(`USBError`, re-raised by the `except USBError` arm in nova.py and
uncaught in nova-chatmix.py), or the external signal handler setting
the closing flag between iterations. -/
inductive ReadEvent where
  | timeout
  | message (m : List Byte)
  | fatalErr
  | closeSignal
deriving DecidableEq, Repr

/-- How one run of Headset.listen ends, and whether the
`self.close(..., ...)` statement after the `while` loop executed:
`normalExit` is falling out of the loop on the closing flag, `raised`
is an exception propagating out of the method, `stillBlocked` means the
supplied event trace ended with the loop still reading. -/
inductive LoopResult where
  | normalExit (closeCalled : Bool)
  | raised (closeCalled : Bool)
  | stillBlocked
deriving DecidableEq, Repr

/-- Headset.listen (nova-chatmix.py lines 131-143, nova.py lines
145-160) as a loop over an event trace.  Timeouts and messages
continue the loop; a fatal read error propagates out of the method
before the `self.close(..., ...)` line, which only runs when the loop
exits via the closing flag. -/
def listenLoop : Bool → List ReadEvent → LoopResult
  | true, _ => LoopResult.normalExit true
  | false, [] => LoopResult.stillBlocked
  | false, e :: rest =>
    match e with
    | ReadEvent.closeSignal => listenLoop true rest
    | ReadEvent.timeout => listenLoop false rest
    | ReadEvent.message _ => listenLoop false rest
    | ReadEvent.fatalErr => LoopResult.raised false

/-- Whether `close()` ran by the time `listen` returned or raised. -/
def closeCalledOf : LoopResult → Bool
  | LoopResult.normalExit b => b
  | LoopResult.raised b => b
  | LoopResult.stillBlocked => false

/-- The close discipline the code actually implements: `close()` runs
exactly on flag-triggered loop exit, never on an exceptional exit. -/
def closeDiscipline : LoopResult → Bool
  | LoopResult.normalExit b => b
  | LoopResult.raised b => !b
  | LoopResult.stillBlocked => true

/-- Concrete ChatMix state as built by Nova5X.__init__ (nova-chatmix.py
lines 378-385): `tx` is `None` (the class sets `TX = None`). -/
def chMixNova5X : ChatMix :=
  { tx := TxVal.absent
    rx := 0x7
    device_name := "SteelSeries_Arctis_Nova_5X".toList
    opt_chatmix := 0x45
    opt_chatmix_enable := 0x49
    pw_original_sink := none
    pw_game_sink := "NovaGame".toList
    pw_chat_sink := "NovaChat".toList
    pw_loopback_game_process := ProcState.noProc
    pw_loopback_chat_process := ProcState.noProc
    chatmix_controls_enabled := false }

/-- Concrete ChatMix state as built by NovaProWireless.__init__
(nova-chatmix.py lines 346-360): `tx = 0x6`. -/
def chMixNovaPro : ChatMix :=
  { chMixNova5X with
    tx := TxVal.present 0x6
    device_name := "SteelSeries_Arctis_Nova_Pro_Wireless".toList }

/-- Sample mid-run state: controls enabled, original sink resolved,
game sink process dead, chat sink running. -/
def chMixMidRun : ChatMix :=
  { chMixNovaPro with
    pw_original_sink := some "alsa_output.usb-SteelSeries.pro".toList
    pw_loopback_game_process := ProcState.dead
    pw_loopback_chat_process := ProcState.running
    chatmix_controls_enabled := true }

/-- Sample headset state wrapping `chMixMidRun`. -/
def hsMidRun : HeadsetState :=
  { closing := false, chatmix := chMixMidRun }

/-- Sample headset state for the receive-only Nova 5X. -/
def hsNova5X : HeadsetState :=
  { closing := false, chatmix := chMixNova5X }

/-- C1: for every packet whose first byte has a handler registered in
the dispatch table, one call of the listen-loop body invokes exactly
that handler with the raw packet; when the first byte has no registered
handler, no handler is invoked (and the body is a total function, so no
error is raised). -/
theorem listenBody_dispatch (listeners : DispatchList) (msg : List Byte)
    (op : Byte) (hop : msg.head? = some op) :
    (∀ h, dictGet listeners op = some h →
        listenBody listeners msg = [(h, msg)]) ∧
    (dictGet listeners op = none → listenBody listeners msg = []) := by
  cases msg with
  | nil => simp at hop
  | cons a rest =>
    simp only [List.head?] at hop
    cases hop
    constructor
    · intro h hh
      simp [listenBody, hh]
    · intro hh
      simp [listenBody, hh]

/-- Witness for C1 at a concrete table and packet. -/
theorem listenBody_dispatch_witness :
    listenBody [(0x45, 1), (0x25, 2)] [0x45, 40, 60] = [(1, [0x45, 40, 60])] :=
  (listenBody_dispatch [(0x45, 1), (0x25, 2)] [0x45, 40, 60] 0x45 (by decide)).1
    1 (by decide)

/-- C3 counterexample: a fatal (non-timeout) read error makes `listen`
raise without executing the `self.close(..., ...)` statement, so close
is not called before the loop routine returns. -/
theorem listen_fatal_skips_close :
    closeCalledOf (listenLoop false [ReadEvent.fatalErr]) = false := by decide

/-- C3 amended: when the loop exits because the closing flag is set,
`close()` is invariably called before `listen` returns; on a fatal
(non-timeout) read error the exception propagates out of `listen`
without `close()` being called there (cleanup is left to the caller's
`finally` block). -/
theorem listen_close_discipline :
    ∀ (c0 : Bool) (evs : List ReadEvent),
      closeDiscipline (listenLoop c0 evs) = true := by
  intro c0 evs
  induction evs generalizing c0 with
  | nil => cases c0 <;> rfl
  | cons e rest ih =>
    cases c0 with
    | true => rfl
    | false =>
      cases e with
      | timeout => exact ih false
      | message m => exact ih false
      | fatalErr => rfl
      | closeSignal => exact ih true

/-- C4: the claim says the encoder zero-pads the remainder of the
packet so that device-side decoding recovers the payload, and the
function's own comment says "padded with zeroes"; in fact
`bytes(data).ljust(msg_len, b"0")` pads with the ASCII character zero,
byte 0x30.  At direction 0x6, opcode 0x49, payload [0x1] and packet
size 64, the encoded buffer differs from the zero-padded spec encoding:
its fourth byte is 0x30, not 0x00. -/
theorem createMsgData_pads_ascii_zero :
    createMsgData [0x6, 0x49, 0x1] 64 ≠ specEncodeWrite 0x6 0x49 [0x1] 64 ∧
    (createMsgData [0x6, 0x49, 0x1] 64).length = 64 ∧
    (createMsgData [0x6, 0x49, 0x1] 64).getD 3 0 = 0x30 ∧
    (specEncodeWrite 0x6 0x49 [0x1] 64).getD 3 0 = 0 := by decide

/-- C5: when a feature's endpoint has no outbound capability (`tx` is
`None` or `NotImplemented`), `_write` returns `False` with no device
I/O and no exception, and `set_chatmix_controls` leaves the whole
feature state (in particular the recorded enabled flag) unchanged. -/
theorem write_unsupported (packetSize : Nat) (ch : ChatMix) (b : Bool)
    (data : List Byte) (h : txWritable ch.tx = false) :
    hfWrite packetSize ch.tx data = (false, []) ∧
    setChatmixControls packetSize ch b = (ch, []) := by
  cases htx : ch.tx with
  | notImpl => exact ⟨by simp [hfWrite], by simp [setChatmixControls, hfWrite, htx]⟩
  | absent => exact ⟨by simp [hfWrite], by simp [setChatmixControls, hfWrite, htx]⟩
  | present t => rw [htx] at h; simp [txWritable] at h

/-- Witness for C5 on the Nova 5X ChatMix state. -/
theorem write_unsupported_witness :
    hfWrite 64 chMixNova5X.tx [0x49, 1] = (false, []) ∧
    setChatmixControls 64 chMixNova5X true = (chMixNova5X, []) :=
  write_unsupported 64 chMixNova5X true [0x49, 1] (by decide)

/-- C10: on a device whose ChatMix feature is receive-only (`tx` is
`None`, as on the Nova 5X) and whose controls-enabled flag is unset
(its initial value, and `set_chatmix_controls` can never set it since
the control write always fails), `close()` emits no effects at all and
leaves the virtual sink processes untouched. -/
theorem close_receive_only_frame (packetSize : Nat) (st : HeadsetState)
    (b : Bool) (htx : st.chatmix.tx = TxVal.absent)
    (hflag : st.chatmix.chatmix_controls_enabled = false) :
    setChatmixControls packetSize st.chatmix b = (st.chatmix, []) ∧
    closeHeadset packetSize st = ({st with closing := true}, []) := by
  constructor
  · simp [setChatmixControls, hfWrite, htx]
  · simp [closeHeadset, chatMixOnClose, hflag]

/-- Witness for C10 on the Nova 5X initial state. -/
theorem close_receive_only_frame_witness :
    setChatmixControls 64 hsNova5X.chatmix true = (hsNova5X.chatmix, []) ∧
    closeHeadset 64 hsNova5X = ({hsNova5X with closing := true}, []) :=
  close_receive_only_frame 64 hsNova5X true (by decide) (by decide)

/-- Override combination of two lookups: the updating table wins. -/
def overrideOpt (new old : Option HandlerId) : Option HandlerId :=
  match new with
  | some v => some v
  | none => old

/-- Unfolding lemma for `dictGet` on a cons cell. -/
theorem dictGet_cons (a : Byte × HandlerId) (d : DispatchList) (q : Byte) :
    dictGet (a :: d) q = if a.1 = q then some a.2 else dictGet d q := by
  by_cases h : a.1 = q
  · rw [dictGet, List.find?_cons_of_pos _ (by simp [h]), if_pos h]
    rfl
  · rw [dictGet, List.find?_cons_of_neg _ (by simp [h]), if_neg h]
    rfl

/-- dictGet on the empty table. -/
theorem dictGet_nil (q : Byte) : dictGet [] q = none := rfl

/-- Replacing key `k` bindings does not change lookups at other keys. -/
theorem dictGet_map_replace_ne (d : DispatchList) (k : Byte) (v : HandlerId)
    (q : Byte) (hq : q ≠ k) :
    dictGet (d.map (fun p => if p.1 == k then (k, v) else p)) q = dictGet d q := by
  induction d with
  | nil => rfl
  | cons a rest ih =>
    rw [List.map_cons]
    by_cases ha : a.1 = k
    · rw [if_pos (by simp [ha]), dictGet_cons, dictGet_cons,
          if_neg (show ¬(k, v).1 = q by simp; exact fun h => hq h.symm),
          if_neg (by rw [ha]; exact fun h => hq h.symm)]
      exact ih
    · rw [if_neg (by simp [ha]), dictGet_cons, dictGet_cons]
      by_cases haq : a.1 = q
      · rw [if_pos haq, if_pos haq]
      · rw [if_neg haq, if_neg haq]
        exact ih

/-- Replacing key `k` bindings makes the lookup at `k` return the new
value, provided the key was present. -/
theorem dictGet_map_replace_eq (d : DispatchList) (k : Byte) (v : HandlerId)
    (hmem : keyMem d k = true) :
    dictGet (d.map (fun p => if p.1 == k then (k, v) else p)) k = some v := by
  induction d with
  | nil => simp [keyMem] at hmem
  | cons a rest ih =>
    rw [List.map_cons]
    by_cases ha : a.1 = k
    · rw [if_pos (by simp [ha]), dictGet_cons, if_pos (by simp)]
    · rw [if_neg (by simp [ha]), dictGet_cons, if_neg ha]
      apply ih
      simp only [keyMem, List.any_cons, (by simp [ha] : (a.1 == k) = false),
        Bool.false_or] at hmem
      exact hmem

/-- Looking up an appended fresh binding at its own key. -/
theorem dictGet_append_single_eq (d : DispatchList) (k : Byte) (v : HandlerId)
    (hmem : keyMem d k = false) :
    dictGet (d ++ [(k, v)]) k = some v := by
  induction d with
  | nil => rw [List.nil_append, dictGet_cons, if_pos rfl]
  | cons a rest ih =>
    simp only [keyMem, List.any_cons, Bool.or_eq_false_iff] at hmem
    rw [List.cons_append, dictGet_cons, if_neg (by simpa using hmem.1)]
    exact ih (by simp [keyMem, hmem.2])

/-- Looking up an appended binding at a different key. -/
theorem dictGet_append_single_ne (d : DispatchList) (k : Byte) (v : HandlerId)
    (q : Byte) (hq : q ≠ k) :
    dictGet (d ++ [(k, v)]) q = dictGet d q := by
  induction d with
  | nil =>
    rw [List.nil_append, dictGet_cons,
        if_neg (show ¬(k, v).1 = q by simp; exact fun h => hq h.symm)]
  | cons a rest ih =>
    rw [List.cons_append, dictGet_cons, dictGet_cons]
    by_cases haq : a.1 = q
    · rw [if_pos haq, if_pos haq]
    · rw [if_neg haq, if_neg haq]
      exact ih

/-- Characterisation of a Python dict item assignment: the lookup at
the inserted key yields the new value, other keys are untouched. -/
theorem dictGet_dictInsert (d : DispatchList) (k : Byte) (v : HandlerId)
    (q : Byte) :
    dictGet (dictInsert d k v) q = if q = k then some v else dictGet d q := by
  unfold dictInsert
  by_cases hq : q = k
  · subst hq
    cases hmem : d.any (fun p => p.1 == q) with
    | true => simp only [if_true, if_pos rfl]
              exact dictGet_map_replace_eq d q v hmem
    | false => simp only [if_false, if_pos rfl]
               exact dictGet_append_single_eq d q v hmem
  · cases hmem : d.any (fun p => p.1 == k) with
    | true => simp only [if_true, if_neg hq]
              exact dictGet_map_replace_ne d k v q hq
    | false => simp only [if_false, if_neg hq]
               exact dictGet_append_single_ne d k v q hq

/-- A `dict.update` leaves lookups at keys absent from the updating
table unchanged. -/
theorem dictGet_dictUpdate_not_mem (d new : DispatchList) (q : Byte)
    (h : keyMem new q = false) :
    dictGet (dictUpdate d new) q = dictGet d q := by
  induction new generalizing d with
  | nil => rfl
  | cons a rest ih =>
    simp only [keyMem, List.any_cons, Bool.or_eq_false_iff] at h
    have step : dictUpdate d (a :: rest) = dictUpdate (dictInsert d a.1 a.2) rest := rfl
    rw [step, ih (dictInsert d a.1 a.2) (by simp [keyMem, h.2]),
        dictGet_dictInsert]
    have : q ≠ a.1 := by
      intro hqa
      rw [hqa] at h
      simp at h
    simp [this]

/-- Decomposition of `dict.update`: a lookup after the update is the
updating table's own effective lookup, falling back to the base. -/
theorem dictGet_dictUpdate (d new : DispatchList) (q : Byte) :
    dictGet (dictUpdate d new) q =
      overrideOpt (dictGet (dictUpdate [] new) q) (dictGet d q) := by
  induction new generalizing d with
  | nil => simp [dictUpdate, dictGet, overrideOpt]
  | cons a rest ih =>
    have step : ∀ e : DispatchList,
        dictUpdate e (a :: rest) = dictUpdate (dictInsert e a.1 a.2) rest :=
      fun e => rfl
    rw [step d, step [], ih (dictInsert d a.1 a.2), ih (dictInsert [] a.1 a.2)]
    cases hr : dictGet (dictUpdate [] rest) q with
    | some v => simp [overrideOpt]
    | none =>
      simp only [overrideOpt]
      rw [dictGet_dictInsert, dictGet_dictInsert]
      by_cases hq : q = a.1
      · simp [hq]
      · simp [hq, dictGet_nil]

/-- A key present in `A` is absent from `B` when their key sets are
disjoint. -/
theorem keysDisjoint_not_mem (A B : DispatchList) (q : Byte)
    (hd : keysDisjoint A B = true) (hq : keyMem A q = true) :
    keyMem B q = false := by
  simp only [keysDisjoint, List.all_eq_true] at hd
  simp only [keyMem, List.any_eq_true] at hq
  obtain ⟨p, hp, hpq⟩ := hq
  have := hd p hp
  simp only [Bool.not_eq_true'] at this
  have hpq2 : p.1 = q := by simpa using hpq
  rw [hpq2] at this
  exact this

/-- An effective lookup in an update of the empty table certifies key
membership. -/
theorem dictGet_empty_update_mem (new : DispatchList) (q : Byte)
    (h : keyMem new q = false) :
    dictGet (dictUpdate [] new) q = none := by
  rw [dictGet_dictUpdate_not_mem [] new q h]
  rfl

/-- C7: for features `A` and `B` with disjoint opcode sets, attaching
`A` then `B` and attaching `B` then `A` produce dispatch tables with
identical lookups at every opcode, and merging a feature's table never
drops earlier entries for opcodes the feature does not claim. -/
theorem attach_order_insensitive (d A B : DispatchList) (q : Byte)
    (hdisj : keysDisjoint A B = true) :
    dictGet (addFeatureListeners (addFeatureListeners d A) B) q =
      dictGet (addFeatureListeners (addFeatureListeners d B) A) q ∧
    (keyMem B q = false →
      dictGet (addFeatureListeners d B) q = dictGet d q) := by
  constructor
  · unfold addFeatureListeners
    rw [dictGet_dictUpdate (dictUpdate d A) B, dictGet_dictUpdate d A,
        dictGet_dictUpdate (dictUpdate d B) A, dictGet_dictUpdate d B]
    cases hA : dictGet (dictUpdate [] A) q with
    | some v =>
      have hmA : keyMem A q = true := by
        cases hmem : keyMem A q with
        | true => rfl
        | false => rw [dictGet_empty_update_mem A q hmem] at hA; cases hA
      have hmB : keyMem B q = false := keysDisjoint_not_mem A B q hdisj hmA
      rw [dictGet_empty_update_mem B q hmB]
      simp [overrideOpt]
    | none =>
      cases hB : dictGet (dictUpdate [] B) q <;> simp [overrideOpt]
  · intro h
    exact dictGet_dictUpdate_not_mem d B q h

/-- Witness for C7 on the NovaProWireless feature tables: ChatMix
{0x45} and Volume {0x25} have disjoint opcode sets. -/
theorem attach_order_insensitive_witness :
    dictGet (addFeatureListeners (addFeatureListeners [] [(0x45, 1)]) [(0x25, 2)]) 0x45 =
      dictGet (addFeatureListeners (addFeatureListeners [] [(0x25, 2)]) [(0x45, 1)]) 0x45 ∧
    dictGet (addFeatureListeners [] [(0x25, 2)]) 0x45 = dictGet [] 0x45 :=
  ⟨(attach_order_insensitive [] [(0x45, 1)] [(0x25, 2)] 0x45 (by decide)).1,
   (attach_order_insensitive [] [(0x45, 1)] [(0x25, 2)] 0x45 (by decide)).2 (by decide)⟩

/-- A process that passes the `_are_sinks_open` check is running. -/
theorem procOpen_eq_running (p : ProcState) (h : procOpen p = true) :
    p = ProcState.running := by
  cases p with
  | running => rfl
  | noProc => simp [procOpen] at h
  | dead => simp [procOpen] at h

/-- A terminated process never passes the `_are_sinks_open` check. -/
theorem procOpen_termProc (p : ProcState) : procOpen (termProc p) = false := by
  cases p <;> rfl

/-- `_detect_original_sink` only writes `pw_original_sink`: the process
handles and virtual sink names are untouched. -/
theorem detectOriginalSink_fields (env : List (List SinkName)) (ch ch1 : ChatMix)
    (e1 : List Effect) (h : detectOriginalSink env ch = Except.ok (ch1, e1)) :
    ch1.pw_loopback_game_process = ch.pw_loopback_game_process ∧
    ch1.pw_loopback_chat_process = ch.pw_loopback_chat_process ∧
    ch1.pw_game_sink = ch.pw_game_sink ∧
    ch1.pw_chat_sink = ch.pw_chat_sink := by
  rw [detectOriginalSink] at h
  by_cases ht : truthyName ch.pw_original_sink = true
  · rw [if_pos ht] at h
    injection h with h2
    injection h2 with ha hb
    rw [← ha]
    exact ⟨rfl, rfl, rfl, rfl⟩
  · rw [if_neg ht] at h
    cases hl : detectLoop ch.device_name env with
    | error e => rw [hl] at h; cases h
    | ok name =>
      rw [hl] at h
      injection h with h2
      injection h2 with ha hb
      rw [← ha]
      exact ⟨rfl, rfl, rfl, rfl⟩

/-- When sink detection succeeds, `_start_virtual_sinks` succeeds and
leaves both virtual sink processes running. -/
theorem startVirtualSinks_ok (env : List (List SinkName)) (ch ch1 : ChatMix)
    (e1 : List Effect) (hdet : detectOriginalSink env ch = Except.ok (ch1, e1)) :
    ∃ effs, startVirtualSinks env ch = Except.ok
      ({ch1 with pw_loopback_game_process := ProcState.running,
                 pw_loopback_chat_process := ProcState.running}, effs) := by
  rw [startVirtualSinks, hdet]
  obtain ⟨tx, rx, dn, oc, oce, pos, pgs, pcs, gp, cp, en⟩ := ch1
  cases gp <;> cases cp <;> exact ⟨_, rfl⟩

/-- Post-condition check for the `chatmix` handler: the call succeeded,
both virtual sinks are running in the final state, and the last two
effects are the game then chat `pactl set-sink-volume` commands. -/
def chatmixPost (g c : Byte) : Except PyError (ChatMix × List Effect) → Bool
  | Except.error _ => false
  | Except.ok (ch2, effs) =>
    decide (ch2.pw_loopback_game_process = ProcState.running) &&
    decide (ch2.pw_loopback_chat_process = ProcState.running) &&
    decide (effs.reverse.take 2 =
      [Effect.setSinkVolume (inputName ch2.pw_chat_sink) c,
       Effect.setSinkVolume (inputName ch2.pw_game_sink) g])

/-- C2: from any ChatMix state in which at least one virtual sink is
absent or dead (and in which the original sink resolves), processing a
volume-report packet `[0x45, g, c]` restarts the missing sinks before
any volume is applied: the handler succeeds, both sinks are RUNNING in
the final state, and its last two effects are set-volume(g) on the game
sink followed by set-volume(c) on the chat sink. -/
theorem chatmix_restarts_sinks (env : List (List SinkName)) (ch ch1 : ChatMix)
    (e1 : List Effect) (g c : Byte) (rest : List Byte)
    (hno : (procOpen ch.pw_loopback_game_process &&
            procOpen ch.pw_loopback_chat_process) = false)
    (hdet : detectOriginalSink env ch = Except.ok (ch1, e1)) :
    chatmixPost g c (chatmixHandler env ch (0x45 :: g :: c :: rest)) = true := by
  obtain ⟨effs, hstart⟩ := startVirtualSinks_ok env ch ch1 e1 hdet
  rw [chatmixHandler, hno]
  simp only [Bool.false_eq_true, if_false]
  rw [hstart]
  simp [chatmixPost, pyGet]

/-- Witness for C2: game sink dead, chat sink running, sink resolved. -/
theorem chatmix_restarts_sinks_witness :
    chatmixPost 40 60 (chatmixHandler [] chMixMidRun [0x45, 40, 60]) = true :=
  chatmix_restarts_sinks [] chMixMidRun chMixMidRun [] 40 60 []
    (by decide) (by rfl)

/-- C6: on any device state satisfying the reachability invariant that
the controls-enabled flag is only set when the endpoint can write (the
flag is only ever set by a successful `_write`), the first `close()`
leaves the ChatMix feature disabled, and a second `close()` emits no
effects and does not change the state: no second disable write and no
second sink teardown. -/
theorem close_idempotent (packetSize : Nat) (st : HeadsetState)
    (hinv : st.chatmix.chatmix_controls_enabled = true →
      txWritable st.chatmix.tx = true) :
    (closeHeadset packetSize st).1.chatmix.chatmix_controls_enabled = false ∧
    closeHeadset packetSize (closeHeadset packetSize st).1 =
      ((closeHeadset packetSize st).1, []) := by
  obtain ⟨cl, ch⟩ := st
  obtain ⟨tx, rx, dn, oc, oce, pos, pgs, pcs, gp, cp, en⟩ := ch
  cases en with
  | false => exact ⟨rfl, rfl⟩
  | true =>
    have hw : txWritable tx = true := hinv rfl
    cases tx with
    | notImpl => simp [txWritable] at hw
    | absent => simp [txWritable] at hw
    | present t => exact ⟨rfl, rfl⟩

/-- Witness for C6 on a mid-run NovaProWireless state with controls
enabled and both sink processes present. -/
theorem close_idempotent_witness :
    (closeHeadset 64 hsMidRun).1.chatmix.chatmix_controls_enabled = false ∧
    closeHeadset 64 (closeHeadset 64 hsMidRun).1 =
      ((closeHeadset 64 hsMidRun).1, []) :=
  close_idempotent 64 hsMidRun (by decide)

/-- Post-condition check for power-on: the handler succeeded and both
virtual sinks are running in the final state. -/
def bothRunning : Except PyError (HeadsetState × List Effect) → Bool
  | Except.error _ => false
  | Except.ok (st, _) =>
    decide (st.chatmix.pw_loopback_game_process = ProcState.running) &&
    decide (st.chatmix.pw_loopback_chat_process = ProcState.running)

/-- C8: the power-change handler on a packet `[b0, v, ...]` behaves by
case on `v`: value 2 terminates both virtual sinks (after it, neither
passes the liveness check); value 3 (when the original sink resolves)
brings both virtual sinks to RUNNING regardless of their prior
liveness; any other value leaves the state unchanged and emits no
effect. -/
theorem power_change_cases (env : List (List SinkName)) (st : HeadsetState)
    (v b0 : Byte) (rest : List Byte) (ch1 : ChatMix) (e1 : List Effect) :
    (v = 2 → onPowerChange env st (b0 :: v :: rest) =
        Except.ok ({st with chatmix := (removeVirtualSinks st.chatmix).1},
          (removeVirtualSinks st.chatmix).2) ∧
      procOpen (removeVirtualSinks st.chatmix).1.pw_loopback_game_process = false ∧
      procOpen (removeVirtualSinks st.chatmix).1.pw_loopback_chat_process = false) ∧
    (v = 3 → detectOriginalSink env st.chatmix = Except.ok (ch1, e1) →
      bothRunning (onPowerChange env st (b0 :: v :: rest)) = true) ∧
    (v ≠ 2 → v ≠ 3 → onPowerChange env st (b0 :: v :: rest) = Except.ok (st, [])) := by
  refine ⟨?_, ?_, ?_⟩
  · intro h2
    subst h2
    refine ⟨rfl, ?_, ?_⟩
    · exact procOpen_termProc _
    · exact procOpen_termProc _
  · intro h3 hdet
    subst h3
    obtain ⟨effs, hstart⟩ := startVirtualSinks_ok env st.chatmix ch1 e1 hdet
    rw [onPowerChange]
    simp only [pyGet, List.get?]
    rw [hstart]
    simp [bothRunning]
  · intro hn2 hn3
    rw [onPowerChange]
    simp only [pyGet, List.get?]
    rw [if_neg hn2, if_neg hn3]

/-- Witness for C8 at payload values 2 and 3 on a resolved state. -/
theorem power_change_cases_witness :
    (onPowerChange [] hsMidRun [0xB9, 2] =
        Except.ok ({hsMidRun with chatmix := (removeVirtualSinks hsMidRun.chatmix).1},
          (removeVirtualSinks hsMidRun.chatmix).2) ∧
      procOpen (removeVirtualSinks hsMidRun.chatmix).1.pw_loopback_game_process = false ∧
      procOpen (removeVirtualSinks hsMidRun.chatmix).1.pw_loopback_chat_process = false) ∧
    bothRunning (onPowerChange [] hsMidRun [0xB9, 3]) = true :=
  ⟨(power_change_cases [] hsMidRun 2 0xB9 [] chMixMidRun []).1 rfl,
   (power_change_cases [] hsMidRun 3 0xB9 [] chMixMidRun []).2.1 rfl (by rfl)⟩

/-- A successful run of the detection loop returns a name containing
the configured device-name substring. -/
theorem detectLoop_found (dev : SinkName) (lines : List (List SinkName))
    (name : SinkName) (h : detectLoop dev lines = Except.ok name) :
    pyInStr dev name = true := by
  induction lines with
  | nil => exact absurd h (by simp [detectLoop])
  | cons fields rest ih =>
    rw [detectLoop] at h
    cases hf : fields.get? 1 with
    | none => rw [hf] at h; cases h
    | some nm =>
      rw [hf] at h
      dsimp only at h
      cases hin : pyInStr dev nm with
      | true =>
        rw [hin, if_pos rfl] at h
        injection h with h2
        rw [← h2]
        exact hin
      | false =>
        rw [hin] at h
        simp only [Bool.false_eq_true, if_false] at h
        exact ih h

/-- Number of `pactl list sinks short` queries in an effect trace. -/
def countQueries (effs : List Effect) : Nat :=
  effs.countP (fun e => decide (e = Effect.listSinksQuery))

/-- C9: for a ChatMix with no explicit sink configured and a non-empty
device-name substring, a first successful sink resolution issues the
sink-listing query exactly once; the second call short-circuits on the
cached name, performing no query, no effect and no state change. -/
theorem detect_caches_query_once (env : List (List SinkName)) (ch ch1 : ChatMix)
    (e1 : List Effect)
    (h0 : ch.pw_original_sink = none)
    (hdev : ch.device_name ≠ [])
    (h1 : detectOriginalSink env ch = Except.ok (ch1, e1)) :
    countQueries e1 = 1 ∧
    detectOriginalSink env ch1 = Except.ok (ch1, []) := by
  rw [detectOriginalSink, h0, if_neg (by simp [truthyName])] at h1
  cases hl : detectLoop ch.device_name env with
  | error e => rw [hl] at h1; cases h1
  | ok name =>
    rw [hl] at h1
    have hname : pyInStr ch.device_name name = true := detectLoop_found _ _ _ hl
    have hnn : name ≠ [] := by
      intro hnil
      rw [hnil] at hname
      simp only [pyInStr, decide_eq_true_eq] at hname
      exact hdev (List.infix_nil.mp hname)
    injection h1 with h2
    injection h2 with ha hb
    constructor
    · rw [← hb]; rfl
    · rw [detectOriginalSink, ← ha]
      have ht : truthyName
          ({ch with pw_original_sink := some name}).pw_original_sink = true := by
        cases name with
        | nil => exact absurd rfl hnn
        | cons a l => rfl
      rw [if_pos ht]

/-- Small ChatMix and environment for the C9 witness. -/
def chMixTiny : ChatMix :=
  { chMixNova5X with device_name := "Nova".toList }

/-- One pactl output line, pre-split on tabs, whose name field contains
the device name. -/
def envTiny : List (List SinkName) :=
  [["57".toList, "alsa_Nova_X".toList]]

/-- The state cached by the first resolution over `envTiny`. -/
def chMixTinyResolved : ChatMix :=
  { chMixTiny with pw_original_sink := some "alsa_Nova_X".toList }

/-- Witness for C9: first call resolves with one query, second call
short-circuits. -/
theorem detect_caches_query_once_witness :
    countQueries [Effect.listSinksQuery] = 1 ∧
    detectOriginalSink envTiny chMixTinyResolved =
      Except.ok (chMixTinyResolved, []) :=
  detect_caches_query_once envTiny chMixTiny chMixTinyResolved
    [Effect.listSinksQuery] (by rfl) (by decide) (by rfl)

end NovaChatmix
